import Mathlib

/-!
Verification of the annotation data model of the Burmese PDF annotation tool.

The embedding follows `src/annotations.py` and `src/pdf_viewer.py`:

* Python floats are modelled as exact rationals (`ℚ`), Python ints as `ℤ`.
* `int()` applied to a number truncates toward zero; `round()` rounds half to
  even.  Both are modelled explicitly (`pyInt`, `pyRound`).
* PIL image buffers are modelled by their pixel dimensions; the text metric of
  `ImageDraw.textbbox` and the bounding box of `Image.rotate(expand=True)` are
  opaque to the geometry logic, so they are passed in as function parameters.
* `QRect` is a rectangle of integers with Qt semantics for `contains`
  (`right = x + width - 1`, `bottom = y + height - 1`).
-/

namespace BurmesePdf

/-- Python `int()` on a number: truncation toward zero. -/
def pyInt (q : ℚ) : ℤ := if 0 ≤ q then ⌊q⌋ else ⌈q⌉

/-- Python `round()` on a number: round half to even (banker's rounding). -/
def pyRound (q : ℚ) : ℤ :=
  if q - (⌊q⌋ : ℚ) < 1/2 then ⌊q⌋
  else if (1 : ℚ)/2 < q - (⌊q⌋ : ℚ) then ⌊q⌋ + 1
  else if ⌊q⌋ % 2 = 0 then ⌊q⌋ else ⌊q⌋ + 1

/-- A `QPoint`. -/
structure Point where
  x : ℤ
  y : ℤ
deriving DecidableEq, Repr

/-- A `QRect`, stored as top-left corner plus width and height. -/
structure Rect where
  x : ℤ
  y : ℤ
  w : ℤ
  h : ℤ
deriving DecidableEq, Repr

/-- `QRect.contains(point)`: the point is inside or on the edge.  In Qt the
right edge is `x + w - 1` and the bottom edge is `y + h - 1`. -/
def Rect.containsPt (r : Rect) (p : Point) : Bool :=
  decide (r.x ≤ p.x ∧ p.x ≤ r.x + r.w - 1 ∧ r.y ≤ p.y ∧ p.y ≤ r.y + r.h - 1)

/-- `QRect.moveTopLeft(p)`: translate the rectangle, keeping its size. -/
def Rect.moveTopLeft (r : Rect) (p : Point) : Rect :=
  { r with x := p.x, y := p.y }

/-- A PIL image buffer, modelled by its pixel dimensions. -/
structure Img where
  w : ℤ
  h : ℤ
deriving DecidableEq, Repr

/-- `TextAnnotation` from `src/annotations.py`.  Screen-space state (`x`, `y`,
`img`, `rect`) sits next to the PDF-space state (`pdf_x`, `pdf_y` and the
styling fields). -/
structure TextAnnotation where
  text : String
  pdf_x : ℚ
  pdf_y : ℚ
  x : ℤ
  y : ℤ
  font_size : ℤ
  color : String
  font_path : String
  rotation : ℤ
  bold : Bool
  italic : Bool
  underline : Bool
  background : Option String
  img : Option Img
  rect : Option Rect
  selected : Bool
  scale_factor : ℚ
deriving DecidableEq, Repr

/-- `TextAnnotation.render_image(scale_factor=None)`.

`measure text fontSize` stands for the PIL text bounding box
(`textbbox` width and height) of `text` at integer font size `fontSize`;
`rotatedDims angle dims` stands for the bounding box of
`Image.rotate(angle, expand=True)` on a buffer of size `dims`.  The geometry
of the annotation does not depend on either. -/
def TextAnnotation.render_image
    (measure : String → ℤ → ℤ × ℤ) (rotatedDims : ℤ → Img → Img)
    (a : TextAnnotation) (scale? : Option ℚ) : TextAnnotation :=
  let sf := scale?.getD ( TextAnnotation.scale_factor a)
  let actual_font_size := pyInt ((a.font_size : ℚ) * sf)
  let tw := (measure a.text actual_font_size).1
  let th := (measure a.text actual_font_size).2
  let padding := pyInt (10 * sf)
  let w := tw + padding * 2
  let h := th + padding * 2
  let img0 : Img := ⟨w, h⟩
  let img := if TextAnnotation.rotation a ≠ 0
    then rotatedDims ( TextAnnotation.rotation a) img0 else img0
  let nx := pyInt (a.pdf_x * sf)
  let ny := pyInt (a.pdf_y * sf)
  { a with scale_factor := sf, img := some img, x := nx, y := ny,
           rect := some ⟨nx, ny, img.w, img.h⟩ }

/-- The `TextAnnotation` constructor (`__init__`), which ends by calling
`render_image()`. -/
def TextAnnotation.init
    (measure : String → ℤ → ℤ × ℤ) (rotatedDims : ℤ → Img → Img)
    (text : String) (x y : ℚ) (font_size : ℤ) (color : String)
    (font_path : String) (rot : ℤ) (bold italic underline : Bool)
    (background : Option String) : TextAnnotation :=
  TextAnnotation.render_image measure rotatedDims
    { text := text, pdf_x := x, pdf_y := y, x := pyInt x, y := pyInt y,
      font_size := font_size, color := color, font_path := font_path,
      rotation := rot, bold := bold, italic := italic, underline := underline,
      background := background, img := none, rect := none, selected := false,
      scale_factor := 1 } none

/-- `TextAnnotation.contains_point(point)`. -/
def TextAnnotation.contains_point (a : TextAnnotation) (p : Point) : Bool :=
  match a.rect with
  | some r => Rect.containsPt r p
  | none => false

/-- `TextAnnotation.move(dx, dy)`: shift the screen position and re-derive the
PDF position from it. -/
def TextAnnotation.move (a : TextAnnotation) (dx dy : ℤ) : TextAnnotation :=
  let nx := a.x + dx
  let ny := a.y + dy
  { a with x := nx, y := ny,
           pdf_x := (nx : ℚ) / TextAnnotation.scale_factor a,
           pdf_y := (ny : ℚ) / TextAnnotation.scale_factor a,
           rect := Option.map (fun r => Rect.moveTopLeft r ⟨nx, ny⟩) a.rect }

/-- The serialized record written by `TextAnnotation.to_dict`: exactly the keys
of the Python dict (besides the `"type": "text"` tag).  The `x`/`y` keys hold
PDF coordinates; no screen-space field has a key. -/
structure TextRecord where
  text : String
  x : ℚ
  y : ℚ
  font_size : ℤ
  color : String
  font_path : String
  rotation : ℤ
  bold : Bool
  italic : Bool
  underline : Bool
  background : Option String
deriving DecidableEq, Repr

/-- `TextAnnotation.to_dict()`. -/
def TextAnnotation.to_dict (a : TextAnnotation) : TextRecord :=
  { text := a.text, x := a.pdf_x, y := a.pdf_y, font_size := a.font_size,
    color := a.color, font_path := a.font_path,
    rotation := TextAnnotation.rotation a, bold := a.bold, italic := a.italic,
    underline := a.underline, background := a.background }

/-- `TextAnnotation.from_dict(data)`: calls the constructor. -/
def TextAnnotation.from_dict
    (measure : String → ℤ → ℤ × ℤ) (rotatedDims : ℤ → Img → Img)
    (d : TextRecord) : TextAnnotation :=
  TextAnnotation.init measure rotatedDims d.text d.x d.y d.font_size d.color
    d.font_path ( TextRecord.rotation d) d.bold d.italic d.underline
    d.background

/-- `ImageAnnotation` from `src/annotations.py`. -/
structure ImageAnnotation where
  image_path : String
  pdf_x : ℚ
  pdf_y : ℚ
  x : ℤ
  y : ℤ
  pdf_width : ℚ
  pdf_height : ℚ
  img : Img
  width : ℤ
  height : ℤ
  rect : Rect
  selected : Bool
  scale_factor : ℚ
deriving DecidableEq, Repr

/-- The `ImageAnnotation` constructor (`__init__`).

`src` is the pixel size of the decoded file at `image_path` (`Image.open`);
`wh?` carries the optional explicit `width`/`height` arguments (either both or
neither are passed by the callers in the repository).  Buffers whose larger
dimension exceeds `MAX_SIZE = 500` are downsampled at load, preserving the
aspect ratio up to truncation. -/
def ImageAnnotation.init (src : Img) (image_path : String) (x y : ℚ)
    (wh? : Option (ℚ × ℚ)) : ImageAnnotation :=
  let sx := pyInt x
  let sy := pyInt y
  let MAX_SIZE : ℤ := 500
  let resize_factor : ℚ :=
    if src.w > MAX_SIZE ∨ src.h > MAX_SIZE then
      if src.w ≥ src.h then (MAX_SIZE : ℚ) / src.w else (MAX_SIZE : ℚ) / src.h
    else 1
  let img1 : Img :=
    if src.w > MAX_SIZE ∨ src.h > MAX_SIZE then
      ⟨pyInt (src.w * resize_factor), pyInt (src.h * resize_factor)⟩
    else src
  match wh? with
  | none =>
      { image_path := image_path, pdf_x := x, pdf_y := y, x := sx, y := sy,
        pdf_width := (img1.w : ℚ), pdf_height := (img1.h : ℚ), img := img1,
        width := img1.w, height := img1.h, rect := ⟨sx, sy, img1.w, img1.h⟩,
        selected := false, scale_factor := 1 }
  | some (w, h) =>
      let img2 : Img := ⟨pyInt w, pyInt h⟩
      { image_path := image_path, pdf_x := x, pdf_y := y, x := sx, y := sy,
        pdf_width := w, pdf_height := h, img := img2,
        width := img2.w, height := img2.h, rect := ⟨sx, sy, img2.w, img2.h⟩,
        selected := false, scale_factor := 1 }

/-- `ImageAnnotation.contains_point(point)`. -/
def ImageAnnotation.contains_point (a : ImageAnnotation) (p : Point) : Bool :=
  Rect.containsPt a.rect p

/-- `ImageAnnotation.move(dx, dy)`. -/
def ImageAnnotation.move (a : ImageAnnotation) (dx dy : ℤ) : ImageAnnotation :=
  let nx := a.x + dx
  let ny := a.y + dy
  { a with x := nx, y := ny,
           pdf_x := (nx : ℚ) / ImageAnnotation.scale_factor a,
           pdf_y := (ny : ℚ) / ImageAnnotation.scale_factor a,
           rect := Rect.moveTopLeft a.rect ⟨nx, ny⟩ }

/-- `ImageAnnotation.resize(width, height)`: clamp each screen dimension to a
minimum of 20, derive the PDF dimensions, resample the buffer, update the
rectangle. -/
def ImageAnnotation.resize (a : ImageAnnotation) (w h : ℤ) : ImageAnnotation :=
  let nw := max 20 w
  let nh := max 20 h
  { a with width := nw, height := nh,
           pdf_width := (nw : ℚ) / ImageAnnotation.scale_factor a,
           pdf_height := (nh : ℚ) / ImageAnnotation.scale_factor a,
           img := ⟨nw, nh⟩, rect := ⟨a.x, a.y, nw, nh⟩ }

/-- `ImageAnnotation.update_scale(scale_factor)`: recompute the screen position
from the PDF position; recompute the screen dimensions, but only resample the
buffer when either dimension moved by more than 2 pixels. -/
def ImageAnnotation.update_scale (a : ImageAnnotation) (s : ℚ) :
    ImageAnnotation :=
  let nx := pyInt (a.pdf_x * s)
  let ny := pyInt (a.pdf_y * s)
  let new_width := pyInt (a.pdf_width * s)
  let new_height := pyInt (a.pdf_height * s)
  let w := if |a.width - new_width| > 2 ∨ |a.height - new_height| > 2
    then new_width else a.width
  let h := if |a.width - new_width| > 2 ∨ |a.height - new_height| > 2
    then new_height else a.height
  let im := if |a.width - new_width| > 2 ∨ |a.height - new_height| > 2
    then Img.mk new_width new_height else a.img
  { a with scale_factor := s, x := nx, y := ny,
           width := w, height := h, img := im, rect := ⟨nx, ny, w, h⟩ }

/-- The serialized record written by `ImageAnnotation.to_dict`: exactly the
keys of the Python dict (besides the `"type": "image"` tag).  The
`x`/`y`/`width`/`height` keys hold PDF-space values; no screen-space field has
a key. -/
structure ImageRecord where
  image_path : String
  x : ℚ
  y : ℚ
  width : ℚ
  height : ℚ
deriving DecidableEq, Repr

/-- `ImageAnnotation.to_dict()`. -/
def ImageAnnotation.to_dict (a : ImageAnnotation) : ImageRecord :=
  { image_path := a.image_path, x := a.pdf_x, y := a.pdf_y,
    width := a.pdf_width, height := a.pdf_height }

/-- `ImageAnnotation.from_dict(data)`: calls the constructor with explicit
width and height.  `src` is the decoded size of the file at the recorded
path. -/
def ImageAnnotation.from_dict (src : Img) (d : ImageRecord) : ImageAnnotation :=
  ImageAnnotation.init src d.image_path d.x d.y (some (d.width, d.height))

/-! ## The viewer (`src/pdf_viewer.py`)

Annotation objects live in a heap `objs` and are referred to by position in
it; this models Python object identity (`list.remove` and
`selected_annotation` compare by identity, since neither class defines
`__eq__`).  The dict `self.annotations` maps a page index to the list of
heap indices of that page's annotations, in insertion order. -/

/-- An annotation object: either kind. -/
inductive Annot
  | text : TextAnnotation → Annot
  | image : ImageAnnotation → Annot
deriving DecidableEq, Repr

/-- Dynamic dispatch of `contains_point`. -/
def Annot.contains_point : Annot → Point → Bool
  | .text a, p => TextAnnotation.contains_point a p
  | .image a, p => ImageAnnotation.contains_point a p

/-- Read the `selected` flag. -/
def Annot.sel : Annot → Bool
  | .text a => a.selected
  | .image a => a.selected

/-- Write the `selected` flag. -/
def Annot.setSel : Annot → Bool → Annot
  | .text a, b => .text { a with selected := b }
  | .image a, b => .image { a with selected := b }

/-- Look up a key in the `self.annotations` dict (modelled as an association
list). -/
def dictGet (d : List (ℤ × List ℕ)) (k : ℤ) : Option (List ℕ) :=
  (d.find? (fun e => e.1 == k)).map (fun e => e.2)

/-- Overwrite the value stored at an existing key. -/
def dictSet (d : List (ℤ × List ℕ)) (k : ℤ) (v : List ℕ) :
    List (ℤ × List ℕ) :=
  d.map (fun e => if e.1 == k then (e.1, v) else e)

/-- Python `list.remove(x)`: drop the first occurrence, or fail with
`ValueError` when `x` is not in the list. -/
def pyListRemove (l : List ℕ) (i : ℕ) : Option (List ℕ) :=
  match l with
  | [] => none
  | j :: rest =>
      if j = i then some rest
      else (pyListRemove rest i).map (fun r => j :: r)

/-- Set the `selected` flag of the object at heap index `i`. -/
def setSelAt : List Annot → ℕ → Bool → List Annot
  | [], _, _ => []
  | a :: rest, 0, b => Annot.setSel a b :: rest
  | a :: rest, n + 1, b => a :: setSelAt rest n b

/-- The `PDFViewerWidget` state that the annotation-store operations touch. -/
structure Viewer where
  objs : List Annot
  annotations : List (ℤ × List ℕ)
  current_page : ℤ
  selected_annotation : Option ℕ
deriving DecidableEq, Repr

/-- `PDFViewerWidget.find_annotation_at_position(pos)`: walk the current
page's sequence in reverse insertion order and return the first annotation
that contains the point. -/
def firstHit (objs : List Annot) (pos : Point) : List ℕ → Option ℕ
  | [] => none
  | i :: rest =>
      match objs[i]? with
      | some a => if Annot.contains_point a pos then some i
                  else firstHit objs pos rest
      | none => firstHit objs pos rest

/-- `PDFViewerWidget.find_annotation_at_position(pos)`. -/
def Viewer.find_annotation_at_position (v : Viewer) (pos : Point) : Option ℕ :=
  match dictGet v.annotations v.current_page with
  | none => none
  | some ids => firstHit v.objs pos ids.reverse

/-- `PDFViewerWidget.select_annotation(annotation)`: deselect the previous
selection (if any), store the new one, mark it selected (if not `None`). -/
def Viewer.select_annotation (v : Viewer) (j : Option ℕ) : Viewer :=
  let objs1 :=
    match Viewer.selected_annotation v with
    | some i => setSelAt v.objs i false
    | none => v.objs
  let objs2 :=
    match j with
    | some k => setSelAt objs1 k true
    | none => objs1
  { v with objs := objs2, selected_annotation := j }

/-- `PDFViewerWidget.delete_selected_annotation()`.  Guarded by
`if self.selected_annotation and self.current_page in self.annotations`;
inside the guard it calls `list.remove`, which raises `ValueError` when the
selected object is not in the current page's list. -/
def Viewer.delete_selected_annotation (v : Viewer) : Except String Viewer :=
  match Viewer.selected_annotation v with
  | none => .ok v
  | some i =>
      match dictGet v.annotations v.current_page with
      | none => .ok v
      | some ids =>
          match pyListRemove ids i with
          | none => .error "ValueError: list.remove(x): x not in list"
          | some ids2 =>
              .ok { v with
                      annotations := dictSet v.annotations v.current_page ids2,
                      selected_annotation := none }

/-- Export (`save_annotations_to_pdf`) re-opens the file at the annotation's
stored path (`Image.open(annotation.image_path)`), not the in-memory buffer.
`readImg` stands for decoding a file path to its pixel buffer. -/
def exportReadsSource (readImg : String → Img) (a : ImageAnnotation) : Img :=
  readImg ( ImageAnnotation.image_path a)

/-! ## Concrete instantiations used by witnesses and counterexamples

`mea0` is one concrete text metric (a width proportional to the font size and
a fixed-slack height), `rot0` one concrete rotated bounding box.  The geometry
theorems hold for every such function; the concrete ones only let witnesses
evaluate. -/

def mea0 : String → ℤ → ℤ × ℤ := fun _ fs => (fs * 4, fs + 4)

def rot0 : ℤ → Img → Img := fun _ d => ⟨d.h, d.w⟩

/-- A text annotation whose PDF x-coordinate has a fractional part above one
half, at scale factor 1. -/
def cexText : TextAnnotation :=
  { text := "hi", pdf_x := 8/5, pdf_y := 0, x := 1, y := 0, font_size := 13,
    color := "red", font_path := "pyidaungsu.ttf", rotation := 0,
    bold := false, italic := false, underline := false, background := none,
    img := some ⟨52, 17⟩, rect := some ⟨1, 0, 52, 17⟩, selected := false,
    scale_factor := 1 }

/-- The text annotation above, re-rendered at scale factor 1. -/
def cexRender : TextAnnotation :=
  TextAnnotation.render_image mea0 rot0 cexText (some 1)

/-- A 100×100 image annotation at scale factor 1 with integral geometry. -/
def cexImage : ImageAnnotation :=
  { image_path := "p.png", pdf_x := 0, pdf_y := 0, x := 0, y := 0,
    pdf_width := 100, pdf_height := 100, img := ⟨100, 100⟩,
    width := 100, height := 100, rect := ⟨0, 0, 100, 100⟩,
    selected := false, scale_factor := 1 }

/-- Annotation object A: a 50×50 image at the origin. -/
def annA : Annot :=
  .image { image_path := "a.png", pdf_x := 0, pdf_y := 0, x := 0, y := 0,
           pdf_width := 50, pdf_height := 50, img := ⟨50, 50⟩,
           width := 50, height := 50, rect := ⟨0, 0, 50, 50⟩,
           selected := false, scale_factor := 1 }

/-- Annotation object B: a 50×50 image overlapping A. -/
def annB : Annot :=
  .image { image_path := "b.png", pdf_x := 10, pdf_y := 10, x := 10, y := 10,
           pdf_width := 50, pdf_height := 50, img := ⟨50, 50⟩,
           width := 50, height := 50, rect := ⟨10, 10, 50, 50⟩,
           selected := false, scale_factor := 1 }

/-- A viewer showing page 0, which holds A then B (in that insertion order),
with nothing selected. -/
def hitViewer : Viewer :=
  { objs := [annA, annB], annotations := [(0, [0, 1])], current_page := 0,
    selected_annotation := none }

/-- A viewer whose selection (object 0) is not in the current page's
sequence: object 0 was selected on another page and the user then moved to
page 1, which holds only object 1.  Page switching does not clear the
selection in the source. -/
def delViewer : Viewer :=
  { objs := [annA, annB], annotations := [(1, [1])], current_page := 1,
    selected_annotation := some 0 }

/-- The `selected` flag of the object at heap index `i`, `false` when the
index is out of range. -/
def selAtB (v : Viewer) (i : ℕ) : Bool :=
  ((( Viewer.objs v)[i]?).map Annot.sel).getD false

/-- The selection invariant: any object whose `selected` flag is set is the
one referenced by `selected_annotation`.  It holds at start-up (both
annotation constructors set `selected = False` and the widget starts with
`selected_annotation = None`). -/
def SelInv (v : Viewer) : Prop :=
  ∀ i : ℕ, selAtB v i = true → Viewer.selected_annotation v = some i

/-! ## Helper lemmas -/

theorem pyInt_intCast (n : ℤ) : pyInt (n : ℚ) = n := by
  unfold pyInt; split <;> simp

theorem pyInt_eq_floor {q : ℚ} (h : 0 ≤ q) : pyInt q = ⌊q⌋ := if_pos h

theorem abs_div_le_of_abs_le {u p s : ℚ} (hs : 0 < s) (h : |u - p * s| ≤ 1) :
    |u / s - p| ≤ 1 / s := by
  have hs' : s ≠ 0 := ne_of_gt hs
  have e : u / s - p = (u - p * s) / s := by field_simp; ring
  rw [e, abs_div, abs_of_pos hs]
  gcongr

/-! ## C10: rescaling rewrites only screen-space state -/

/-- C10: `TextAnnotation.render_image` and `ImageAnnotation.update_scale`
leave every PDF-space field unchanged (`pdf_x`, `pdf_y`, and for images also
`pdf_width`/`pdf_height`), along with all styling fields; only the
screen-space fields and the pixel buffer are rewritten. -/
theorem rescale_preserves_pdf_fields
    (mea : String → ℤ → ℤ × ℤ) (rot : ℤ → Img → Img)
    (a : TextAnnotation) (s? : Option ℚ) (b : ImageAnnotation) (s : ℚ) :
    ( TextAnnotation.render_image mea rot a s?).pdf_x = a.pdf_x ∧
    ( TextAnnotation.render_image mea rot a s?).pdf_y = a.pdf_y ∧
    ( TextAnnotation.render_image mea rot a s?).text = a.text ∧
    ( TextAnnotation.render_image mea rot a s?).font_size = a.font_size ∧
    ( TextAnnotation.render_image mea rot a s?).color = a.color ∧
    ( TextAnnotation.render_image mea rot a s?).font_path = a.font_path ∧
    TextAnnotation.rotation ( TextAnnotation.render_image mea rot a s?)
      = TextAnnotation.rotation a ∧
    ( TextAnnotation.render_image mea rot a s?).bold = a.bold ∧
    ( TextAnnotation.render_image mea rot a s?).italic = a.italic ∧
    ( TextAnnotation.render_image mea rot a s?).underline = a.underline ∧
    ( TextAnnotation.render_image mea rot a s?).background = a.background ∧
    ( TextAnnotation.render_image mea rot a s?).selected = a.selected ∧
    ( ImageAnnotation.update_scale b s).pdf_x = b.pdf_x ∧
    ( ImageAnnotation.update_scale b s).pdf_y = b.pdf_y ∧
    ( ImageAnnotation.update_scale b s).pdf_width = b.pdf_width ∧
    ( ImageAnnotation.update_scale b s).pdf_height = b.pdf_height ∧
    ( ImageAnnotation.update_scale b s).image_path = b.image_path ∧
    ( ImageAnnotation.update_scale b s).selected = b.selected :=
  ⟨rfl, rfl, rfl, rfl, rfl, rfl, rfl, rfl, rfl, rfl, rfl, rfl, rfl, rfl, rfl,
   rfl, rfl, rfl⟩

/-! ## C4: serialization round-trip -/

/-- C4: `FromRecord(ToRecord(a))` restores every PDF-space field, for both
annotation kinds, and the record holds no screen-space field (`ToRecord` is
invariant under arbitrary changes to the screen-space state). -/
theorem record_roundtrip_pdf_fields
    (mea : String → ℤ → ℤ × ℤ) (rot : ℤ → Img → Img)
    (a : TextAnnotation) (src : Img) (b : ImageAnnotation)
    (x' y' : ℤ) (im' : Option Img) (r' : Option Rect) (se' : Bool) (sf' : ℚ)
    (xi yi wi hi : ℤ) (imi : Img) (ri : Rect) (sei : Bool) (sfi : ℚ) :
    ( TextAnnotation.from_dict mea rot ( TextAnnotation.to_dict a)).text
      = a.text ∧
    ( TextAnnotation.from_dict mea rot ( TextAnnotation.to_dict a)).pdf_x
      = a.pdf_x ∧
    ( TextAnnotation.from_dict mea rot ( TextAnnotation.to_dict a)).pdf_y
      = a.pdf_y ∧
    ( TextAnnotation.from_dict mea rot ( TextAnnotation.to_dict a)).font_size
      = a.font_size ∧
    ( TextAnnotation.from_dict mea rot ( TextAnnotation.to_dict a)).color
      = a.color ∧
    ( TextAnnotation.from_dict mea rot ( TextAnnotation.to_dict a)).font_path
      = a.font_path ∧
    TextAnnotation.rotation
        ( TextAnnotation.from_dict mea rot ( TextAnnotation.to_dict a))
      = TextAnnotation.rotation a ∧
    ( TextAnnotation.from_dict mea rot ( TextAnnotation.to_dict a)).bold
      = a.bold ∧
    ( TextAnnotation.from_dict mea rot ( TextAnnotation.to_dict a)).italic
      = a.italic ∧
    ( TextAnnotation.from_dict mea rot ( TextAnnotation.to_dict a)).underline
      = a.underline ∧
    ( TextAnnotation.from_dict mea rot ( TextAnnotation.to_dict a)).background
      = a.background ∧
    ( ImageAnnotation.from_dict src ( ImageAnnotation.to_dict b)).image_path
      = b.image_path ∧
    ( ImageAnnotation.from_dict src ( ImageAnnotation.to_dict b)).pdf_x
      = b.pdf_x ∧
    ( ImageAnnotation.from_dict src ( ImageAnnotation.to_dict b)).pdf_y
      = b.pdf_y ∧
    ( ImageAnnotation.from_dict src ( ImageAnnotation.to_dict b)).pdf_width
      = b.pdf_width ∧
    ( ImageAnnotation.from_dict src ( ImageAnnotation.to_dict b)).pdf_height
      = b.pdf_height ∧
    TextAnnotation.to_dict
        { a with x := x', y := y', img := im', rect := r', selected := se',
                 scale_factor := sf' }
      = TextAnnotation.to_dict a ∧
    ImageAnnotation.to_dict
        { b with x := xi, y := yi, width := wi, height := hi, img := imi,
                 rect := ri, selected := sei, scale_factor := sfi }
      = ImageAnnotation.to_dict b :=
  ⟨rfl, rfl, rfl, rfl, rfl, rfl, rfl, rfl, rfl, rfl, rfl, rfl, rfl, rfl, rfl,
   rfl, rfl, rfl⟩

/-! ## C3: resize clamps to a 20-pixel minimum -/

/-- C3: `Resize(new_width, new_height)` sets the screen dimensions to
`max(20, ·)` of the request, derives the PDF dimensions by dividing by the
scale factor, and in particular `Resize(5, 5)` yields a 20×20 annotation. -/
theorem resize_clamps (b : ImageAnnotation) (w h : ℤ)
    (hs : 0 < ImageAnnotation.scale_factor b) :
    ( ImageAnnotation.resize b w h).width = max 20 w ∧
    ( ImageAnnotation.resize b w h).height = max 20 h ∧
    ( ImageAnnotation.resize b w h).pdf_width
      = ((max 20 w : ℤ) : ℚ) / ImageAnnotation.scale_factor b ∧
    ( ImageAnnotation.resize b w h).pdf_height
      = ((max 20 h : ℤ) : ℚ) / ImageAnnotation.scale_factor b ∧
    ( ImageAnnotation.resize b 5 5).width = 20 ∧
    ( ImageAnnotation.resize b 5 5).height = 20 := by
  refine ⟨rfl, rfl, rfl, rfl, ?_, ?_⟩ <;>
    · simp only [ ImageAnnotation.resize]
      omega

/-- Witness for C3 at a concrete annotation: `Resize(5, 5)` on a 100×100
image at scale 1 gives a 20×20 screen box. -/
theorem resize_clamps_witness :
    0 < ImageAnnotation.scale_factor cexImage ∧
    ( ImageAnnotation.resize cexImage 5 5).width = 20 :=
  ⟨by norm_num [cexImage],
   (resize_clamps cexImage 5 5 (by norm_num [cexImage])).2.2.2.2.1⟩

/-! ## C1: screen coordinates after geometry-mutating operations -/

/-- C1 (amended): immediately after `RenderAtScale(s)` / `update_scale(s)`
the screen coordinates are the *truncations* `int(pdf_x * s)`,
`int(pdf_y * s)` (Python `int()`, toward zero), not `round(...)`; after
`Move` the relation is exact (`x == pdf_x * s` as rationals, `s > 0`); and
`Resize` leaves `x`, `y`, `pdf_x`, `pdf_y` unchanged, preserving whatever
relation held before. -/
theorem geometry_ops_screen_coords
    (mea : String → ℤ → ℤ × ℤ) (rot : ℤ → Img → Img)
    (a : TextAnnotation) (b : ImageAnnotation) (s : ℚ) (dx dy w h : ℤ)
    (hsa : 0 < TextAnnotation.scale_factor a)
    (hsb : 0 < ImageAnnotation.scale_factor b) :
    (( TextAnnotation.render_image mea rot a (some s)).x
        = pyInt (a.pdf_x * s) ∧
     ( TextAnnotation.render_image mea rot a (some s)).y
        = pyInt (a.pdf_y * s)) ∧
    (( ImageAnnotation.update_scale b s).x = pyInt (b.pdf_x * s) ∧
     ( ImageAnnotation.update_scale b s).y = pyInt (b.pdf_y * s)) ∧
    ((( TextAnnotation.move a dx dy).x : ℚ)
        = ( TextAnnotation.move a dx dy).pdf_x
            * TextAnnotation.scale_factor ( TextAnnotation.move a dx dy) ∧
     (( TextAnnotation.move a dx dy).y : ℚ)
        = ( TextAnnotation.move a dx dy).pdf_y
            * TextAnnotation.scale_factor ( TextAnnotation.move a dx dy) ∧
     (( ImageAnnotation.move b dx dy).x : ℚ)
        = ( ImageAnnotation.move b dx dy).pdf_x
            * ImageAnnotation.scale_factor ( ImageAnnotation.move b dx dy) ∧
     (( ImageAnnotation.move b dx dy).y : ℚ)
        = ( ImageAnnotation.move b dx dy).pdf_y
            * ImageAnnotation.scale_factor ( ImageAnnotation.move b dx dy)) ∧
    (( ImageAnnotation.resize b w h).x = b.x ∧
     ( ImageAnnotation.resize b w h).y = b.y ∧
     ( ImageAnnotation.resize b w h).pdf_x = b.pdf_x ∧
     ( ImageAnnotation.resize b w h).pdf_y = b.pdf_y) := by
  have hsa' : TextAnnotation.scale_factor a ≠ 0 := ne_of_gt hsa
  have hsb' : ImageAnnotation.scale_factor b ≠ 0 := ne_of_gt hsb
  refine ⟨⟨rfl, rfl⟩, ⟨rfl, rfl⟩, ⟨?_, ?_, ?_, ?_⟩, rfl, rfl, rfl, rfl⟩ <;>
    · simp only [ TextAnnotation.move, ImageAnnotation.move]
      field_simp

/-- Witness for C1 at a concrete text annotation and scale 2: rendering at
scale 2 puts the screen x at `int(pdf_x * 2)`. -/
theorem geometry_ops_screen_coords_witness :
    0 < TextAnnotation.scale_factor cexText ∧
    ( TextAnnotation.render_image mea0 rot0 cexText (some 2)).x
      = pyInt ((8/5 : ℚ) * 2) :=
  ⟨by norm_num [cexText],
   (geometry_ops_screen_coords mea0 rot0 cexText cexImage 2 7 (-4) 5 5
     (by norm_num [cexText]) (by norm_num [cexImage])).1.1⟩

/-- Counterexample to C1 as stated: after `RenderAtScale(1)` on an annotation
with `pdf_x = 8/5`, the screen coordinate is `int(8/5) = 1`, while the claim
demands `round(8/5) = 2`. -/
theorem geometry_ops_screen_coords_cex :
    TextAnnotation.pdf_x cexRender = 8/5 ∧
    TextAnnotation.scale_factor cexRender = 1 ∧
    TextAnnotation.x cexRender = 1 ∧
    pyRound ((8/5 : ℚ) * 1) = 2 ∧ (1 : ℤ) ≠ 2 := by
  refine ⟨rfl, rfl, ?_, ?_, by decide⟩
  · norm_num [cexRender, cexText, TextAnnotation.render_image, pyInt]
  · norm_num [pyRound]

/-! ## C2: screen dimensions after a scale update -/

/-- C2 (amended): after `update_scale(s)` the screen dimensions are within 2
pixels of `int(pdf_width * s)` / `int(pdf_height * s)`; they are set to
exactly those truncations when either dimension would change by more than 2
pixels, and are otherwise left at their previous values.  The PDF dimensions
are unchanged either way. -/
theorem update_scale_dims (b : ImageAnnotation) (s : ℚ) :
    |( ImageAnnotation.update_scale b s).width
        - pyInt (b.pdf_width * s)| ≤ 2 ∧
    |( ImageAnnotation.update_scale b s).height
        - pyInt (b.pdf_height * s)| ≤ 2 ∧
    ((|b.width - pyInt (b.pdf_width * s)| > 2 ∨
      |b.height - pyInt (b.pdf_height * s)| > 2) →
        ( ImageAnnotation.update_scale b s).width = pyInt (b.pdf_width * s) ∧
        ( ImageAnnotation.update_scale b s).height
          = pyInt (b.pdf_height * s)) ∧
    (¬(|b.width - pyInt (b.pdf_width * s)| > 2 ∨
       |b.height - pyInt (b.pdf_height * s)| > 2) →
        ( ImageAnnotation.update_scale b s).width = b.width ∧
        ( ImageAnnotation.update_scale b s).height = b.height) ∧
    ( ImageAnnotation.update_scale b s).pdf_width = b.pdf_width ∧
    ( ImageAnnotation.update_scale b s).pdf_height = b.pdf_height := by
  by_cases hc : |b.width - pyInt (b.pdf_width * s)| > 2 ∨
      |b.height - pyInt (b.pdf_height * s)| > 2
  · have hw : ( ImageAnnotation.update_scale b s).width
        = pyInt (b.pdf_width * s) := by
      simp only [ ImageAnnotation.update_scale]
      rw [if_pos hc]
    have hh : ( ImageAnnotation.update_scale b s).height
        = pyInt (b.pdf_height * s) := by
      simp only [ ImageAnnotation.update_scale]
      rw [if_pos hc]
    refine ⟨?_, ?_, fun _ => ⟨hw, hh⟩, fun hn => absurd hc hn, rfl, rfl⟩ <;>
      simp [hw, hh]
  · have hw : ( ImageAnnotation.update_scale b s).width = b.width := by
      simp only [ ImageAnnotation.update_scale]
      rw [if_neg hc]
    have hh : ( ImageAnnotation.update_scale b s).height = b.height := by
      simp only [ ImageAnnotation.update_scale]
      rw [if_neg hc]
    push_neg at hc
    refine ⟨?_, ?_, fun hy => ?_, fun _ => ⟨hw, hh⟩, rfl, rfl⟩
    · rw [hw]; exact hc.1
    · rw [hh]; exact hc.2
    · rcases hy with hy | hy
      · exact absurd hy (not_lt.mpr hc.1)
      · exact absurd hy (not_lt.mpr hc.2)

/-- Witness for C2's conditional branch at a concrete annotation: tripling
the scale of the 100×100 image forces a resample to `int(100 * 3) = 300`. -/
theorem update_scale_dims_witness :
    (abs ( ImageAnnotation.width cexImage
        - pyInt ( ImageAnnotation.pdf_width cexImage * 3)) > 2 ∨
     abs ( ImageAnnotation.height cexImage
        - pyInt ( ImageAnnotation.pdf_height cexImage * 3)) > 2) ∧
    ( ImageAnnotation.update_scale cexImage 3).width
      = pyInt ( ImageAnnotation.pdf_width cexImage * 3) :=
  ⟨by norm_num [cexImage, pyInt],
   ((update_scale_dims cexImage 3).2.2.1
     (by norm_num [cexImage, pyInt])).1⟩

/-- Counterexample to C2 as stated: scaling the 100×100 image by 101/100
leaves the screen width at 100 (the 1-pixel change is below the resample
threshold), while the claim demands `round(100 * 101/100) = 101`. -/
theorem update_scale_dims_cex :
    ImageAnnotation.pdf_width
        ( ImageAnnotation.update_scale cexImage (101/100)) = 100 ∧
    ImageAnnotation.scale_factor
        ( ImageAnnotation.update_scale cexImage (101/100)) = 101/100 ∧
    ImageAnnotation.width
        ( ImageAnnotation.update_scale cexImage (101/100)) = 100 ∧
    pyRound ((100 : ℚ) * (101/100)) = 101 ∧ (100 : ℤ) ≠ 101 := by
  refine ⟨rfl, rfl, ?_, ?_, by decide⟩
  · norm_num [cexImage, ImageAnnotation.update_scale, pyInt]
  · norm_num [pyRound]

/-! ## C7: move followed by inverse move -/

/-- C7: for any annotation whose screen coordinates are within one pixel of
`pdf * scale_factor` (true of every state the program produces, since every
geometry-mutating operation re-establishes it), `Move(dx, dy)` followed by
`Move(-dx, -dy)` restores `pdf_x`/`pdf_y` to within one device pixel, i.e.
within `1/scale_factor` in PDF space. -/
theorem move_inverse_restores (a : TextAnnotation) (b : ImageAnnotation)
    (dx dy : ℤ)
    (hsa : 0 < TextAnnotation.scale_factor a)
    (hax : |(a.x : ℚ) - a.pdf_x * TextAnnotation.scale_factor a| ≤ 1)
    (hay : |(a.y : ℚ) - a.pdf_y * TextAnnotation.scale_factor a| ≤ 1)
    (hsb : 0 < ImageAnnotation.scale_factor b)
    (hbx : |(b.x : ℚ) - b.pdf_x * ImageAnnotation.scale_factor b| ≤ 1)
    (hby : |(b.y : ℚ) - b.pdf_y * ImageAnnotation.scale_factor b| ≤ 1) :
    |( TextAnnotation.move ( TextAnnotation.move a dx dy) (-dx) (-dy)).pdf_x
        - a.pdf_x| ≤ 1 / TextAnnotation.scale_factor a ∧
    |( TextAnnotation.move ( TextAnnotation.move a dx dy) (-dx) (-dy)).pdf_y
        - a.pdf_y| ≤ 1 / TextAnnotation.scale_factor a ∧
    |( ImageAnnotation.move ( ImageAnnotation.move b dx dy) (-dx) (-dy)).pdf_x
        - b.pdf_x| ≤ 1 / ImageAnnotation.scale_factor b ∧
    |( ImageAnnotation.move ( ImageAnnotation.move b dx dy) (-dx) (-dy)).pdf_y
        - b.pdf_y| ≤ 1 / ImageAnnotation.scale_factor b := by
  refine ⟨?_, ?_, ?_, ?_⟩ <;>
    · simp only [ TextAnnotation.move, ImageAnnotation.move]
      push_cast
      rw [show ∀ u v : ℚ, u + v + -v = u from fun u v => by ring]
      first
        | exact abs_div_le_of_abs_le hsa hax
        | exact abs_div_le_of_abs_le hsa hay
        | exact abs_div_le_of_abs_le hsb hbx
        | exact abs_div_le_of_abs_le hsb hby

/-- Witness for C7 at concrete annotations: moving by (7, -4) and back
restores the PDF position to within one device pixel. -/
theorem move_inverse_restores_witness :
    |( TextAnnotation.move ( TextAnnotation.move cexText 7 (-4)) (-7) 4).pdf_x
        - TextAnnotation.pdf_x cexText|
      ≤ 1 / TextAnnotation.scale_factor cexText :=
  (move_inverse_restores cexText cexImage 7 (-4)
    (by norm_num [cexText])
    (by rw [abs_le]; constructor <;> norm_num [cexText])
    (by rw [abs_le]; constructor <;> norm_num [cexText])
    (by norm_num [cexImage])
    (by rw [abs_le]; constructor <;> norm_num [cexImage])
    (by rw [abs_le]; constructor <;> norm_num [cexImage])).1

/-! ## C9: load-time downsampling of large images -/

/-- C9: loading an image whose larger dimension exceeds 500 px downsamples
the buffer by the single factor `500 / larger_dim`: the larger dimension
becomes exactly 500, the other is scaled by the same factor (truncated), so
the aspect ratio is preserved to pixel precision.  The stored `image_path` is
the untouched source path, and export re-reads that file, not the buffer. -/
theorem load_downsamples_large_images (src : Img) (path : String) (x y : ℚ)
    (readImg : String → Img)
    (hw : 0 < src.w) (hh : 0 < src.h) (hbig : 500 < src.w ∨ 500 < src.h) :
    (src.h ≤ src.w →
      ( ImageAnnotation.init src path x y none).width = 500 ∧
      ( ImageAnnotation.init src path x y none).height
        = pyInt ((src.h : ℚ) * (500 / (src.w : ℚ))) ∧
      ( ImageAnnotation.init src path x y none).height ≤ 500) ∧
    (src.w < src.h →
      ( ImageAnnotation.init src path x y none).height = 500 ∧
      ( ImageAnnotation.init src path x y none).width
        = pyInt ((src.w : ℚ) * (500 / (src.h : ℚ))) ∧
      ( ImageAnnotation.init src path x y none).width ≤ 500) ∧
    ( ImageAnnotation.init src path x y none).image_path = path ∧
    exportReadsSource readImg ( ImageAnnotation.init src path x y none)
      = readImg path := by
  have hcond : src.w > 500 ∨ src.h > 500 := hbig
  have hw' : ((src.w : ℚ)) ≠ 0 := by positivity
  have hh' : ((src.h : ℚ)) ≠ 0 := by positivity
  refine ⟨fun hle => ?_, fun hlt => ?_, rfl, rfl⟩
  · have hge : src.w ≥ src.h := hle
    have hwfull : (src.w : ℚ) * (500 / (src.w : ℚ)) = ((500 : ℤ) : ℚ) := by
      field_simp
    have h1 : ( ImageAnnotation.init src path x y none).width
        = pyInt ((src.w : ℚ) * (500 / (src.w : ℚ))) := by
      simp only [ ImageAnnotation.init]
      rw [if_pos hcond, if_pos hcond, if_pos hge]
      push_cast
      ring_nf
    have h2 : ( ImageAnnotation.init src path x y none).height
        = pyInt ((src.h : ℚ) * (500 / (src.w : ℚ))) := by
      simp only [ ImageAnnotation.init]
      rw [if_pos hcond, if_pos hcond, if_pos hge]
      push_cast
      ring_nf
    have hnn : (0 : ℚ) ≤ (src.h : ℚ) * (500 / (src.w : ℚ)) := by positivity
    refine ⟨?_, h2, ?_⟩
    · rw [h1, hwfull, pyInt_intCast]
    · rw [h2, pyInt_eq_floor hnn]
      have hle500 : (src.h : ℚ) * (500 / (src.w : ℚ)) ≤ ((500 : ℤ) : ℚ) := by
        rw [mul_div_assoc', div_le_iff₀ (by positivity)]
        push_cast
        nlinarith [(show ((src.h : ℚ)) ≤ ((src.w : ℚ)) by exact_mod_cast hge)]
      calc ⌊(src.h : ℚ) * (500 / (src.w : ℚ))⌋
          ≤ ⌊((500 : ℤ) : ℚ)⌋ := Int.floor_le_floor hle500
        _ = 500 := Int.floor_intCast 500
  · have hge : ¬ (src.w ≥ src.h) := not_le.mpr hlt
    have hhfull : (src.h : ℚ) * (500 / (src.h : ℚ)) = ((500 : ℤ) : ℚ) := by
      field_simp
    have h1 : ( ImageAnnotation.init src path x y none).height
        = pyInt ((src.h : ℚ) * (500 / (src.h : ℚ))) := by
      simp only [ ImageAnnotation.init]
      rw [if_pos hcond, if_pos hcond, if_neg hge]
      push_cast
      ring_nf
    have h2 : ( ImageAnnotation.init src path x y none).width
        = pyInt ((src.w : ℚ) * (500 / (src.h : ℚ))) := by
      simp only [ ImageAnnotation.init]
      rw [if_pos hcond, if_pos hcond, if_neg hge]
      push_cast
      ring_nf
    have hnn : (0 : ℚ) ≤ (src.w : ℚ) * (500 / (src.h : ℚ)) := by positivity
    refine ⟨?_, h2, ?_⟩
    · rw [h1, hhfull, pyInt_intCast]
    · rw [h2, pyInt_eq_floor hnn]
      have hle500 : (src.w : ℚ) * (500 / (src.h : ℚ)) ≤ ((500 : ℤ) : ℚ) := by
        rw [mul_div_assoc', div_le_iff₀ (by positivity)]
        push_cast
        nlinarith [(show ((src.w : ℚ)) ≤ ((src.h : ℚ)) by exact_mod_cast (le_of_lt hlt))]
      calc ⌊(src.w : ℚ) * (500 / (src.h : ℚ))⌋
          ≤ ⌊((500 : ℤ) : ℚ)⌋ := Int.floor_le_floor hle500
        _ = 500 := Int.floor_intCast 500

/-- Witness for C9: a 2000×1000 source becomes exactly 500×250 on load (the
2:1 aspect ratio preserved), and the stored path is the source path. -/
theorem load_downsamples_large_images_witness :
    (( ImageAnnotation.init ⟨2000, 1000⟩ "s.png" 0 0 none).width = 500 ∧
     ( ImageAnnotation.init ⟨2000, 1000⟩ "s.png" 0 0 none).height
        = pyInt ((1000 : ℚ) * (500 / 2000)) ∧
     ( ImageAnnotation.init ⟨2000, 1000⟩ "s.png" 0 0 none).height ≤ 500) ∧
    pyInt ((1000 : ℚ) * (500 / 2000)) = 250 ∧
    ( ImageAnnotation.init ⟨2000, 1000⟩ "s.png" 0 0 none).image_path
      = "s.png" :=
  ⟨by
      have h := load_downsamples_large_images ⟨2000, 1000⟩ "s.png" 0 0
        (fun _ => ⟨2000, 1000⟩) (by decide) (by decide) (by left; decide)
      exact h.1 (by decide),
   by norm_num [pyInt], rfl⟩

/-! ## Viewer helper lemmas -/

theorem firstHit_none (objs : List Annot) (pos : Point) (l : List ℕ)
    (h : ∀ i ∈ l, ∀ a, objs[i]? = some a → Annot.contains_point a pos = false) :
    firstHit objs pos l = none := by
  induction l with
  | nil => rfl
  | cons i rest ih =>
    have hrest := ih (fun j hj a ha => h j (by simp [hj]) a ha)
    cases hoi : objs[i]? with
    | none => simp [firstHit, hoi, hrest]
    | some a =>
      have hc := h i (by simp) a hoi
      simp [firstHit, hoi, hc, hrest]

theorem firstHit_some (objs : List Annot) (pos : Point) (l : List ℕ) (i : ℕ)
    (h : firstHit objs pos l = some i) :
    i ∈ l ∧ ∃ a, objs[i]? = some a ∧ Annot.contains_point a pos = true := by
  induction l with
  | nil => simp [firstHit] at h
  | cons j rest ih =>
    cases hoj : objs[j]? with
    | none =>
      simp only [firstHit, hoj] at h
      rcases ih h with ⟨hm, ha⟩
      exact ⟨by simp [hm], ha⟩
    | some a =>
      simp only [firstHit, hoj] at h
      by_cases hc : Annot.contains_point a pos
      · rw [if_pos hc] at h
        obtain rfl : j = i := Option.some.inj h
        exact ⟨by simp, a, hoj, hc⟩
      · rw [if_neg hc] at h
        rcases ih h with ⟨hm, ha⟩
        exact ⟨by simp [hm], ha⟩

theorem firstHit_cons_hit (objs : List Annot) (pos : Point) (j : ℕ)
    (rest : List ℕ) (a : Annot) (ha : objs[j]? = some a)
    (hc : Annot.contains_point a pos = true) :
    firstHit objs pos (j :: rest) = some j := by
  simp [firstHit, ha, hc]

theorem setSelAt_getElem? (l : List Annot) (i j : ℕ) (b : Bool) :
    (setSelAt l j b)[i]?
      = if i = j then (l[i]?).map (fun a => Annot.setSel a b) else l[i]? := by
  induction l generalizing i j with
  | nil => simp [setSelAt]
  | cons a rest ih =>
    cases j with
    | zero =>
      cases i with
      | zero => simp [setSelAt]
      | succ i' => simp [setSelAt]
    | succ j' =>
      cases i with
      | zero => simp [setSelAt]
      | succ i' => simpa [setSelAt] using ih i' j'

theorem setSelAt_length (l : List Annot) (j : ℕ) (b : Bool) :
    (setSelAt l j b).length = l.length := by
  induction l generalizing j with
  | nil => rfl
  | cons a rest ih =>
    cases j with
    | zero => rfl
    | succ j' => simpa [setSelAt] using ih j'

theorem sel_setSel (a : Annot) (b : Bool) : Annot.sel (Annot.setSel a b) = b := by
  cases a <;> rfl

/-- Evaluate the per-index `selected` flag through a `setSelAt`. -/
theorem selAtL_setSelAt (o : List Annot) (i j : ℕ) (b : Bool) :
    (((setSelAt o j b)[i]?).map Annot.sel).getD false
      = if i = j then (if (o[i]?).isSome then b else false)
        else ((o[i]?).map Annot.sel).getD false := by
  rw [setSelAt_getElem?]
  by_cases hij : i = j
  · subst hij
    cases ho : o[i]? <;> simp [ho, sel_setSel]
  · simp [hij]

theorem pyListRemove_eq_none_iff (l : List ℕ) (i : ℕ) :
    pyListRemove l i = none ↔ i ∉ l := by
  induction l with
  | nil => simp [pyListRemove]
  | cons j rest ih =>
    by_cases hj : j = i
    · subst hj
      simp [pyListRemove]
    · simp [pyListRemove, hj, Option.map_eq_none', ih, Ne.symm hj]

theorem selInv_of_all_not_sel (v : Viewer)
    (h : ∀ a ∈ Viewer.objs v, Annot.sel a = false) : SelInv v := by
  intro i hi
  exfalso
  unfold selAtB at hi
  cases ho : ( Viewer.objs v)[i]? with
  | none => simp [ho] at hi
  | some a =>
    have hmem : a ∈ Viewer.objs v := List.getElem?_mem ho
    simp [ho, h a hmem] at hi

theorem select_sets_selected_field (v : Viewer) (j : Option ℕ) :
    Viewer.selected_annotation ( Viewer.select_annotation v j) = j := by
  cases hp : Viewer.selected_annotation v <;> cases j <;>
    simp [ Viewer.select_annotation, hp]

theorem select_objs_eq (v : Viewer) (j : Option ℕ) :
    Viewer.objs ( Viewer.select_annotation v j)
      = (match j with
          | some k =>
              setSelAt (match Viewer.selected_annotation v with
                        | some p => setSelAt ( Viewer.objs v) p false
                        | none => Viewer.objs v) k true
          | none =>
              match Viewer.selected_annotation v with
              | some p => setSelAt ( Viewer.objs v) p false
              | none => Viewer.objs v) := by
  cases hp : Viewer.selected_annotation v <;> cases j <;>
    simp [ Viewer.select_annotation, hp]

theorem selInv_select (v : Viewer) (hv : SelInv v) (j : Option ℕ) :
    SelInv ( Viewer.select_annotation v j) := by
  intro i hi
  rw [select_sets_selected_field]
  unfold selAtB at hi
  rw [select_objs_eq] at hi
  cases j with
  | some k =>
      by_cases hik : i = k
      · exact hik ▸ rfl
      · rw [show (∀ o : List Annot, (setSelAt o k true)[i]? = o[i]?) from
            fun o => by rw [setSelAt_getElem?, if_neg hik]] at hi
        exfalso
        cases hp : Viewer.selected_annotation v with
        | some p =>
            rw [hp] at hi
            by_cases hip : i = p
            · subst hip
              rw [setSelAt_getElem?, if_pos rfl] at hi
              cases ho : ( Viewer.objs v)[i]? with
              | none => rw [ho] at hi; exact Bool.noConfusion hi
              | some a =>
                  rw [ho] at hi
                  simp [sel_setSel] at hi
            · rw [setSelAt_getElem?, if_neg hip] at hi
              have : Viewer.selected_annotation v = some i := hv i hi
              rw [hp] at this
              exact hip (Option.some.inj this).symm
        | none =>
            rw [hp] at hi
            have : Viewer.selected_annotation v = some i := hv i hi
            rw [hp] at this
            exact Option.noConfusion this
  | none =>
      exfalso
      cases hp : Viewer.selected_annotation v with
      | some p =>
          rw [hp] at hi
          by_cases hip : i = p
          · subst hip
            rw [setSelAt_getElem?, if_pos rfl] at hi
            cases ho : ( Viewer.objs v)[i]? with
            | none => rw [ho] at hi; exact Bool.noConfusion hi
            | some a =>
                rw [ho] at hi
                simp [sel_setSel] at hi
          · rw [setSelAt_getElem?, if_neg hip] at hi
            have : Viewer.selected_annotation v = some i := hv i hi
            rw [hp] at this
            exact hip (Option.some.inj this).symm
      | none =>
          rw [hp] at hi
          have : Viewer.selected_annotation v = some i := hv i hi
          rw [hp] at this
          exact Option.noConfusion this

theorem selInv_foldl (js : List (Option ℕ)) (v : Viewer) (hv : SelInv v) :
    SelInv (List.foldl Viewer.select_annotation v js) := by
  induction js generalizing v with
  | nil => exact hv
  | cons j rest ih => exact ih _ (selInv_select v hv j)

/-! ## C5: hit-testing is topmost-first -/

/-- C5: `HitTest` walks the page's sequence in reverse insertion order and
returns the first annotation containing the point: it returns none when the
page is absent or no annotation contains the point; any hit it returns does
contain the point and is on the page; and when the page's sequence is
`l ++ [j]` with `j` containing the point, the result is `j` — so of two
overlapping annotations added A then B, it returns B. -/
theorem hit_test_topmost (v : Viewer) (pos : Point) (ids l : List ℕ) (j : ℕ)
    (b : Annot) :
    (dictGet ( Viewer.annotations v) ( Viewer.current_page v) = none →
      Viewer.find_annotation_at_position v pos = none) ∧
    (dictGet ( Viewer.annotations v) ( Viewer.current_page v) = some ids →
      ((∀ i ∈ ids, ∀ a, ( Viewer.objs v)[i]? = some a →
          Annot.contains_point a pos = false) →
        Viewer.find_annotation_at_position v pos = none) ∧
      (∀ i, Viewer.find_annotation_at_position v pos = some i →
        i ∈ ids ∧ ∃ a, ( Viewer.objs v)[i]? = some a ∧
          Annot.contains_point a pos = true) ∧
      (ids = l ++ [j] → ( Viewer.objs v)[j]? = some b →
        Annot.contains_point b pos = true →
        Viewer.find_annotation_at_position v pos = some j)) := by
  constructor
  · intro hmiss
    simp [ Viewer.find_annotation_at_position, hmiss]
  · intro hpage
    have hfind : Viewer.find_annotation_at_position v pos
        = firstHit ( Viewer.objs v) pos ids.reverse := by
      simp [ Viewer.find_annotation_at_position, hpage]
    refine ⟨?_, ?_, ?_⟩
    · intro hnone
      rw [hfind]
      exact firstHit_none _ _ _
        (fun i hi a ha => hnone i (List.mem_reverse.mp hi) a ha)
    · intro i hi
      rw [hfind] at hi
      rcases firstHit_some _ _ _ _ hi with ⟨hm, ha⟩
      exact ⟨List.mem_reverse.mp hm, ha⟩
    · intro hids hb hc
      rw [hfind, hids, List.reverse_append]
      simpa using firstHit_cons_hit ( Viewer.objs v) pos j l.reverse b hb hc

/-- Witness for C5: in the viewer whose page 0 holds A then B (overlapping),
hit-testing a point inside both returns B (heap index 1). -/
theorem hit_test_topmost_witness :
    Viewer.find_annotation_at_position hitViewer ⟨20, 20⟩ = some 1 :=
  (((hit_test_topmost hitViewer ⟨20, 20⟩ [0, 1] [0] 1 annB).2
    rfl).2.2) rfl rfl (by decide)

/-! ## C6: at most one selected annotation -/

/-- C6: starting from any state satisfying the selection invariant (true at
start-up, where nothing is selected), after any sequence of `Select` calls at
most one annotation system-wide has `selected = true`; and selecting A then B
leaves A's flag false and B's flag true. -/
theorem select_at_most_one (v : Viewer) (js : List (Option ℕ)) (iA iB : ℕ)
    (hv : SelInv v)
    (hA : iA < ( Viewer.objs v).length) (hB : iB < ( Viewer.objs v).length)
    (hAB : iA ≠ iB) :
    (∀ i k, selAtB (List.foldl Viewer.select_annotation v js) i = true →
      selAtB (List.foldl Viewer.select_annotation v js) k = true → i = k) ∧
    selAtB ( Viewer.select_annotation ( Viewer.select_annotation v (some iA))
      (some iB)) iA = false ∧
    selAtB ( Viewer.select_annotation ( Viewer.select_annotation v (some iA))
      (some iB)) iB = true := by
  have hinv := selInv_foldl js v hv
  refine ⟨fun i k hi hk => ?_, ?_, ?_⟩
  · have h1 := hinv i hi
    have h2 := hinv k hk
    rw [h1] at h2
    exact Option.some.inj h2
  · unfold selAtB
    rw [select_objs_eq, select_sets_selected_field]
    rw [select_objs_eq]
    rw [selAtL_setSelAt, if_neg hAB, selAtL_setSelAt, if_pos rfl]
    split <;> rfl
  · have hlen : iB < (setSelAt ( Viewer.objs
        ( Viewer.select_annotation v (some iA))) iA false).length := by
      rw [setSelAt_length, select_objs_eq]
      cases hp : Viewer.selected_annotation v <;>
        simp [setSelAt_length, hB]
    unfold selAtB
    rw [select_objs_eq, select_sets_selected_field]
    rw [selAtL_setSelAt, if_pos rfl, List.getElem?_eq_getElem hlen]
    rfl

/-- Witness for C6: in the two-annotation viewer with nothing selected,
selecting object 0 then object 1 leaves 0 deselected and 1 selected. -/
theorem select_at_most_one_witness :
    selAtB ( Viewer.select_annotation
      ( Viewer.select_annotation hitViewer (some 0)) (some 1)) 0 = false ∧
    selAtB ( Viewer.select_annotation
      ( Viewer.select_annotation hitViewer (some 0)) (some 1)) 1 = true :=
  (select_at_most_one hitViewer [] 0 1
    (selInv_of_all_not_sel hitViewer (by decide))
    (by decide) (by decide) (by decide)).2

/-! ## C8: deletion of the selected annotation -/

/-- C8 (amended): `delete_selected_annotation` removes the selected
annotation by identity (first occurrence) from the current page's sequence and
clears the selection; it is a silent no-op when nothing is selected or when
the current page is not in the store; but when the page exists and the
selected annotation is *not* in its sequence, `list.remove` raises
`ValueError` — it is not a silent no-op in that case. -/
theorem delete_selected_behavior (v : Viewer) :
    ( Viewer.selected_annotation v = none →
      Viewer.delete_selected_annotation v = Except.ok v) ∧
    (∀ i, Viewer.selected_annotation v = some i →
      dictGet ( Viewer.annotations v) ( Viewer.current_page v) = none →
      Viewer.delete_selected_annotation v = Except.ok v) ∧
    (∀ i ids, Viewer.selected_annotation v = some i →
      dictGet ( Viewer.annotations v) ( Viewer.current_page v) = some ids →
      i ∉ ids →
      Viewer.delete_selected_annotation v
        = Except.error "ValueError: list.remove(x): x not in list") ∧
    (∀ i ids ids2, Viewer.selected_annotation v = some i →
      dictGet ( Viewer.annotations v) ( Viewer.current_page v) = some ids →
      pyListRemove ids i = some ids2 →
      Viewer.delete_selected_annotation v
        = Except.ok { v with
            annotations := dictSet ( Viewer.annotations v)
              ( Viewer.current_page v) ids2,
            selected_annotation := none }) := by
  refine ⟨fun hp => ?_, fun i hp hd => ?_, fun i ids hp hd hm => ?_,
    fun i ids ids2 hp hd hr => ?_⟩
  · simp [ Viewer.delete_selected_annotation, hp]
  · simp [ Viewer.delete_selected_annotation, hp, hd]
  · simp [ Viewer.delete_selected_annotation, hp, hd,
      (pyListRemove_eq_none_iff ids i).mpr hm]
  · simp [ Viewer.delete_selected_annotation, hp, hd, hr]

/-- Witness for C8: with nothing selected, deletion is a silent no-op. -/
theorem delete_selected_behavior_witness :
    Viewer.delete_selected_annotation hitViewer = Except.ok hitViewer :=
  (delete_selected_behavior hitViewer).1 rfl

/-- Counterexample to C8 as stated: in the viewer whose selection is not in
the current page's sequence (selection kept across a page switch), deletion
raises `ValueError` instead of being a silent no-op. -/
theorem delete_selected_behavior_cex :
    Viewer.delete_selected_annotation delViewer
      = Except.error "ValueError: list.remove(x): x not in list" ∧
    (Except.error "ValueError: list.remove(x): x not in list"
      : Except String Viewer) ≠ Except.ok delViewer :=
  ⟨rfl, by simp⟩

end BurmesePdf
